import Mathlib

/-!
Verification of the rag-search pipeline (handlers/rag_search.py,
services/web.py, services/document/store.py) against its specification.

Modelling conventions:
* A Python search-result dict is a `Result` record.  Provider-supplied keys
  (`title`, `link`, `snippet`, `score`) are always present; `content` and
  `uuid` are optional keys, modelled as `Option` fields (`none` = key absent).
  Reading an absent key raises `KeyError` in Python; the embedding returns an
  error in those places.
* Python floats are only ever compared in this code, never computed with, so
  scores are embedded as rationals `ℚ`.
* External collaborators (search provider, rerank model, HTTP transport,
  html2text, vector store, md5) are oracle function parameters.
* In-place mutation of the result list is embedded by state passing: a stage
  returns the post-execution list together with an optional error, and the
  orchestrator, like the Python `except` blocks, keeps the (possibly already
  mutated) list when the stage fails.
-/

/-- A search-result record (a loosely-typed Python dict).
`content` and `uuid` are optional keys; `none` means the key is absent. -/
structure Result where
  title : String
  link : String
  snippet : String
  score : ℚ
  content : Option String := none
  uuid : Option String := none
  deriving DecidableEq, Repr

/-- A match record returned by `query_results` (services/document/query.py is
external to the handler): each matched fragment carries its source `uuid` and
the matched `content` text.  Retrieval order is list order. -/
structure MatchRes where
  uuid : String
  content : String
  deriving DecidableEq, Repr

/-- A llama-index `Document` as built by `build_document`
(services/document/store.py): text plus the metadata dict
{uuid, title, snippet, link}; `doc_id` is set to the uuid. -/
structure Document where
  text : String
  muuid : String
  mtitle : String
  msnippet : String
  mlink : String
  doc_id : String
  deriving DecidableEq, Repr

/-! ### services/web.py -/

/-- Dropping a prefix never lengthens a list (termination measure helper). -/
theorem length_dropWhile_le (p : Char → Bool) :
    ∀ l : List Char, (l.dropWhile p).length ≤ l.length := by
  intro l
  induction l with
  | nil => simp [List.dropWhile]
  | cons c cs ih =>
    by_cases h : p c
    · simp only [List.dropWhile, h]
      exact Nat.le_succ_of_le ih
    · simp [List.dropWhile, h]

/-- `re.sub(r'\n{2,}', '\n', s)` on a character list: every maximal run of two
or more newline characters is replaced by a single newline. -/
def collapseNl : List Char → List Char
  | [] => []
  | c :: cs =>
    if c = '\n' ∧ cs.head? = some '\n' then
      '\n' :: collapseNl (cs.dropWhile (· = '\n'))
    else
      c :: collapseNl cs
termination_by l => l.length
decreasing_by
  · simp only [List.length_cons]
    exact Nat.lt_succ_of_le (length_dropWhile_le _ _)
  · simp

/-- `fetch_markdown(session, url)`: fetch the page and convert it to markdown.
`web url = none` models `session.get` raising (transport error): the exception
is caught and `(url, "")` is returned.  `web url = some html` models
`fetch_url` returning a body (already `""` when `raise_for_status` failed, as
`fetch_url` catches that itself); the body is converted by the external
`html2text` handler `h2t` and runs of blank lines are collapsed. -/
def fetchMarkdown (web : String → Option String) (h2t : String → String)
    (url : String) : String × String :=
  match web url with
  | none => (url, "")
  | some html => (url, String.mk (collapseNl (h2t html).toList))

/-- `batch_fetch_urls(urls)`: one `fetch_markdown` task per url, gathered in
order (`asyncio.gather` preserves task order; a task never raises because
`fetch_markdown` catches everything). -/
def batchFetchUrls (web : String → Option String) (h2t : String → String)
    (urls : List String) : List (String × String) :=
  urls.map (fetchMarkdown web h2t)

/-! ### fetch_details (handlers/rag_search.py) -/

/-- The url-selection loop of `fetch_details`, with `count` the number of urls
collected so far (`len(urls)`): stop when `count > top_k`, otherwise include
`res["link"]` whenever `res["score"] >= min_score`. -/
def selectUrlsGo (min_score : ℚ) (top_k : Nat) : Nat → List Result → List String
  | _, [] => []
  | count, r :: rs =>
    if count > top_k then []
    else if r.score ≥ min_score then
      r.link :: selectUrlsGo min_score top_k (count + 1) rs
    else
      selectUrlsGo min_score top_k count rs

/-- The urls `fetch_details` selects for fetching. -/
def selectUrls (search_results : List Result) (min_score : ℚ) (top_k : Nat) :
    List String :=
  selectUrlsGo min_score top_k 0 search_results

/-- The `content_maps` dict of `fetch_details`: assignments in list order,
a later assignment to the same url overwriting an earlier one.  The dict is
represented as the reversed pair list, so that `List.lookup` (first hit) finds
the last assignment. -/
def urlContentMaps (details : List (String × String)) : List (String × String) :=
  details.reverse

/-- `fetch_details(search_results, min_score, top_k)`: select urls, batch-fetch
them, then for every result whose `link` is in the fetched map set/overwrite
its `content`. -/
def fetchDetails (web : String → Option String) (h2t : String → String)
    (search_results : List Result) (min_score : ℚ) (top_k : Nat) :
    List Result :=
  let urls := selectUrls search_results min_score top_k
  let details := batchFetchUrls web h2t urls
  let content_maps := urlContentMaps details
  search_results.map (fun result =>
    match content_maps.lookup result.link with
    | some c => { result with content := some c }
    | none => result)

/-! ### services/document/store.py -/

/-- `build_document(result)`: `None` (here `none`) when `link` or `snippet` is
falsy; otherwise a `Document` whose uuid is `result["uuid"]` if that key is
present, else `md5(result["link"])` (md5 is the external hash helper), whose
text is the content when present and strictly longer than the snippet, else
the snippet, and whose metadata records uuid/title/snippet/link.  The input
record itself is never modified. -/
def buildDocument (md5 : String → String) (result : Result) : Option Document :=
  if result.link = "" ∨ result.snippet = "" then none
  else
    let uuid := match result.uuid with
      | some u => u
      | none => md5 result.link
    let text := match result.content with
      | some c => if c.length > result.snippet.length then c else result.snippet
      | none => result.snippet
    some { text := text, muuid := uuid, mtitle := result.title,
           msnippet := result.snippet, mlink := result.link, doc_id := uuid }

/-! ### filter_content (handlers/rag_search.py) -/

/-- The enrichment test of `filter_content`'s selection loop:
`"content" in result and len(result["content"]) > len(result["snippet"])`. -/
def hasLongContent (result : Result) : Bool :=
  match result.content with
  | some c => c.length > result.snippet.length
  | none => false

/-- `results_with_content`: the sublist of results passing the enrichment
test, in order; only these are submitted to `store_results` for indexing. -/
def resultsWithContent (search_results : List Result) : List Result :=
  search_results.filter hasLongContent

/-- One step of building `filter_content`'s `content_maps` dict: if the uuid
is not yet a key it is initialised to `""`, otherwise the fragment's content
is appended to the existing value.  (Note the first fragment's text is never
stored: the `+=` sits in the `else` branch.) -/
def addMatch (cm : List (String × String)) (m : MatchRes) :
    List (String × String) :=
  match cm.lookup m.uuid with
  | none => cm ++ [(m.uuid, "")]
  | some v => cm.map (fun p => if p.1 = m.uuid then (p.1, v ++ m.content) else p)

/-- The `content_maps` dict of `filter_content`, built from the match results
in retrieval order.  Keys are unique by construction. -/
def contentMapsOf (match_results : List MatchRes) : List (String × String) :=
  match_results.foldl addMatch []

/-- The merge-back loop of `filter_content`: for every original result, read
`result["uuid"]` — a `KeyError` (embedded as the error string) if the key is
absent, aborting the loop with the earlier results already mutated in place —
and when that uuid is a key of `content_maps`, overwrite the result's
`content` with the mapped blob.  Returns the post-execution list state and
the optional error. -/
def mergeBack (cm : List (String × String)) :
    List Result → List Result × Option String
  | [] => ([], none)
  | r :: rs =>
    match r.uuid with
    | none => (r :: rs, some "KeyError: uuid")
    | some u =>
      let r' := match cm.lookup u with
        | some blob => { r with content := some blob }
        | none => r
      ((r' :: (mergeBack cm rs).1), (mergeBack cm rs).2)

/-- `filter_content(search_results, query, filter_min_score, filter_top_k)`:
select the enriched results, build their documents and index them
(`store_results`), query the store (`query_results`) — both external effects
are the oracle `storeQuery`, whose failure is re-raised before any mutation —
then build `content_maps` from the matches and merge back into the original
list.  Returns the post-execution list state and the optional error. -/
def filterContent
    (storeQuery : List (Option Document) → String → ℚ → Nat → Except String (List MatchRes))
    (md5 : String → String) (search_results : List Result) (query : String)
    (filter_min_score : ℚ) (filter_top_k : Nat) :
    List Result × Option String :=
  let results_with_content := resultsWithContent search_results
  let documents := results_with_content.map (buildDocument md5)
  match storeQuery documents query filter_min_score filter_top_k with
  | .error e => (search_results, some e)
  | .ok match_results =>
    let content_maps := contentMapsOf match_results
    mergeBack content_maps search_results

/-! ### The rerank stage

The body of `services/rerank/rerank.py` is not among the sources; only its
call site in the handler is.  Per the specification it recomputes every
item's `score` against the query and returns the list reordered descending by
the new score, touching no other field. -/

/-- Modelled from the spec: `rerank(results, query)`
(services/rerank/rerank.py, source not provided).  "Recomputes `score` for
every item based on semantic relevance to the query and returns the list
reordered descending by new score. ... Never touches
`uuid`/`url`/`title`/`snippet`."  The external relevance model is the oracle
`newScore`. -/
def rerankSpec (newScore : Result → String → ℚ) (search_results : List Result)
    (query : String) : List Result :=
  (search_results.map (fun r => { r with score := newScore r query })).mergeSort
    (fun a b => a.score ≥ b.score)

/-! ### The handler (rag_search) -/

/-- The request model `RagSearchReq` with its pydantic defaults.  The counts
are embedded as naturals and the float thresholds as rationals. -/
structure RagSearchReq where
  query : String
  locale : String := ""
  search_n : Nat := 10
  search_provider : String := "google"
  is_reranking : Bool := false
  is_detail : Bool := false
  detail_top_k : Nat := 6
  detail_min_score : ℚ := 7/10
  is_filter : Bool := false
  filter_min_score : ℚ := 4/5
  filter_top_k : Nat := 6
  deriving DecidableEq, Repr

/-- A response from `utils/resp.py` (external helper).  Modelled from the
spec: "Error response: single message string; uniform shape for all failure
kinds"; a success response carries the `search_results` list. -/
inductive Resp where
  | err (message : String)
  | data (search_results : List Result)
  deriving DecidableEq, Repr

/-- The pipeline stages, for recording which stages a request invoked. -/
inductive Stage where
  | retrieverS
  | rerankS
  | detailS
  | filterS
  deriving DecidableEq, Repr

/-- The external collaborators of the handler, as oracles:
* `retriever`: `get_search_results` composed with the `search` helper's
  parameter building (query, num, locale; empty locale = no `hl` param);
  `Except.error` models a raised exception.
* `newScore`: the rerank model's relevance score (spec-modelled, see
  `rerankSpec`); `rerankFails` models `rerank` raising.
* `web`, `h2t`: HTTP transport and html2text, see `fetchMarkdown`.
* `storeQuery`: `store_results` + `query_results` vector-store round trip.
* `md5`: the `utils/hash` digest. -/
structure Oracles where
  retriever : String → Nat → String → Except String (List Result)
  newScore : Result → String → ℚ
  rerankFails : Bool
  web : String → Option String
  h2t : String → String
  storeQuery : List (Option Document) → String → ℚ → Nat → Except String (List MatchRes)
  md5 : String → String

/-- Python `str.replace(old, new)` on character lists (the handler only calls
it with the nonempty pattern `"Bearer "`): scan left to right, replacing
non-overlapping occurrences. -/
def pyReplace (old new : List Char) : List Char → List Char
  | [] => []
  | c :: cs =>
    if _h : old ≠ [] ∧ old.isPrefixOf (c :: cs) then
      new ++ pyReplace old new ((c :: cs).drop old.length)
    else
      c :: pyReplace old new cs
termination_by l => l.length
decreasing_by
  · have hpos : 0 < old.length := List.length_pos.mpr _h.1
    simp only [List.length_drop, List.length_cons]
    omega
  · simp

/-- The api key the handler extracts from the `authorization` header:
`""` when the header is missing, otherwise the header with every occurrence
of `"Bearer "` removed (`str.replace`). -/
def extractApiKey (authorization : Option String) : String :=
  match authorization with
  | none => ""
  | some a => String.mk (pyReplace "Bearer ".toList "".toList a.toList)

/-- The auth check `apiKey != authApiKey`: `os.getenv("AUTH_API_KEY")` is
`none` when the variable is unset, and a Python `str` never equals `None`,
so an unset secret denies every request. -/
def authOk (secret : Option String) (authorization : Option String) : Bool :=
  match secret with
  | none => false
  | some s => extractApiKey authorization = s

/-- `rag_search(req, authorization)`: auth check, query check, retrieve, then
the three optional stages, each guarded by its flag and its failure swallowed
(the possibly part-mutated list state is kept, as the Python list object is
mutated in place).  Returns the response together with the list of pipeline
stages that were invoked. -/
def ragSearch (o : Oracles) (secret : Option String)
    (authorization : Option String) (req : RagSearchReq) : Resp × List Stage :=
  if ¬ authOk secret authorization then (Resp.err "Access Denied", [])
  else if req.query = "" then (Resp.err "invalid params", [])
  else
    match o.retriever req.query req.search_n req.locale with
    | .error e =>
      (Resp.err ("get search results failed: " ++ e), [Stage.retrieverS])
    | .ok rs0 =>
      let (rs1, t1) :=
        if req.is_reranking then
          (if o.rerankFails then rs0 else rerankSpec o.newScore rs0 req.query,
           [Stage.rerankS])
        else (rs0, [])
      let (rs2, t2) :=
        if req.is_detail then
          (fetchDetails o.web o.h2t rs1 req.detail_min_score req.detail_top_k,
           [Stage.detailS])
        else (rs1, [])
      let (rs3, t3) :=
        if req.is_filter then
          ((filterContent o.storeQuery o.md5 rs2 req.query req.filter_min_score
              req.filter_top_k).1,
           [Stage.filterS])
        else (rs2, [])
      (Resp.data rs3, Stage.retrieverS :: (t1 ++ t2 ++ t3))

/-! ### Helper notions and lemmas -/

/-- Two result records that agree on every field a stage is forbidden to
touch: everything except `content`. -/
def sameExceptContent (a b : Result) : Prop :=
  a.title = b.title ∧ a.link = b.link ∧ a.snippet = b.snippet ∧
  a.score = b.score ∧ a.uuid = b.uuid

instance : ∀ a b, Decidable (sameExceptContent a b) := by
  intro a b
  unfold sameExceptContent
  infer_instance

theorem sameExceptContent_refl (a : Result) : sameExceptContent a a :=
  ⟨rfl, rfl, rfl, rfl, rfl⟩

theorem forall₂_sec_refl (l : List Result) :
    List.Forall₂ sameExceptContent l l :=
  List.forall₂_same.mpr (fun x _ => sameExceptContent_refl x)

/-- The merge-back loop only ever writes `content`: whatever state it leaves
the list in — success or `KeyError` part way through — every record keeps its
position and all fields except `content`. -/
theorem mergeBack_sec (cm : List (String × String)) (l : List Result) :
    List.Forall₂ sameExceptContent l (mergeBack cm l).1 := by
  induction l with
  | nil => simp [mergeBack]
  | cons r rs ih =>
    cases hu : r.uuid with
    | none =>
      simp only [mergeBack, hu]
      exact List.Forall₂.cons (sameExceptContent_refl r) (forall₂_sec_refl rs)
    | some u =>
      simp only [mergeBack, hu]
      cases hl : cm.lookup u with
      | none => exact List.Forall₂.cons (sameExceptContent_refl r) ih
      | some blob =>
        exact List.Forall₂.cons ⟨rfl, rfl, rfl, rfl, hu⟩ ih

/-- If some record lacks the `uuid` key, the merge-back loop raises
`KeyError`. -/
theorem mergeBack_err (cm : List (String × String)) (l : List Result)
    (h : ∃ r ∈ l, r.uuid = none) :
    (mergeBack cm l).2 = some "KeyError: uuid" := by
  induction l with
  | nil => simp at h
  | cons r rs ih =>
    cases hu : r.uuid with
    | none => simp [mergeBack, hu]
    | some u =>
      simp only [mergeBack, hu]
      rcases h with ⟨r', hr', hr'u⟩
      rcases List.mem_cons.mp hr' with rfl | hmem
      · rw [hu] at hr'u; cases hr'u
      · exact ih ⟨r', hmem, hr'u⟩

/-- A map whose function only rewrites `content` relates pointwise to the
original list. -/
theorem forall₂_sec_map (f : Result → Result)
    (hf : ∀ a, sameExceptContent a (f a)) (l : List Result) :
    List.Forall₂ sameExceptContent l (l.map f) := by
  induction l with
  | nil => simp
  | cons a l ih => exact List.Forall₂.cons (hf a) ih

/-- `filter_content` only ever writes `content` fields: the list state it
returns (on success or on failure) keeps every record in position with all
other fields unchanged. -/
theorem filterContent_sec (sq : List (Option Document) → String → ℚ → Nat → Except String (List MatchRes))
    (md5 : String → String) (l : List Result) (q : String) (a : ℚ) (b : Nat) :
    List.Forall₂ sameExceptContent l (filterContent sq md5 l q a b).1 := by
  simp only [filterContent]
  cases hsq : sq ((resultsWithContent l).map (buildDocument md5)) q a b with
  | error e => exact forall₂_sec_refl l
  | ok ms => exact mergeBack_sec (contentMapsOf ms) l

/-- `fetch_details` only ever writes `content` fields. -/
theorem fetchDetails_sec (web : String → Option String) (h2t : String → String)
    (l : List Result) (ms : ℚ) (tk : Nat) :
    List.Forall₂ sameExceptContent l (fetchDetails web h2t l ms tk) := by
  simp only [fetchDetails]
  refine forall₂_sec_map _ (fun a => ?_) l
  cases (urlContentMaps (batchFetchUrls web h2t (selectUrls l ms tk))).lookup a.link with
  | none => exact sameExceptContent_refl a
  | some c => exact ⟨rfl, rfl, rfl, rfl, rfl⟩

/-- The selection loop computes a prefix of the qualifying links: with `c`
urls already collected it takes the first `top_k + 1 - c` links of the
results whose score clears the threshold. -/
theorem selectUrlsGo_eq (ms : ℚ) (tk : Nat) :
    ∀ (rs : List Result) (c : Nat), c ≤ tk + 1 →
      selectUrlsGo ms tk c rs =
        ((rs.filter (fun r => ms ≤ r.score)).map Result.link).take (tk + 1 - c) := by
  intro rs
  induction rs with
  | nil => intro c _; simp [selectUrlsGo]
  | cons r rs ih =>
    intro c hc
    rcases Nat.lt_or_ge tk c with h | h
    · have hc' : c = tk + 1 := Nat.le_antisymm hc h
      subst hc'
      simp [selectUrlsGo, Nat.lt_irrefl]
    · have hnot : ¬ (tk < c) := Nat.not_lt.mpr h
      have hsub : tk + 1 - c = (tk - c) + 1 := by omega
      have hsub' : tk + 1 - (c + 1) = tk - c := by omega
      by_cases hs : ms ≤ r.score
      · simp only [selectUrlsGo, if_neg hnot, ge_iff_le, if_pos hs]
        rw [ih (c + 1) (by omega), hsub', hsub]
        simp [List.filter_cons, hs]
      · simp only [selectUrlsGo, if_neg hnot, ge_iff_le, if_neg hs]
        rw [ih c (by omega)]
        simp [List.filter_cons, hs]

/-- The urls selected by `fetch_details`: the links of the first
`top_k + 1` results clearing the score threshold, in list order. -/
theorem selectUrls_eq (rs : List Result) (ms : ℚ) (tk : Nat) :
    selectUrls rs ms tk =
      ((rs.filter (fun r => ms ≤ r.score)).map Result.link).take (tk + 1) := by
  unfold selectUrls
  rw [selectUrlsGo_eq ms tk rs 0 (Nat.zero_le _), Nat.sub_zero]

/-- `List.lookup` distributes over append. -/
theorem lookup_append (l₁ l₂ : List (String × String)) (x : String) :
    (l₁ ++ l₂).lookup x =
      match l₁.lookup x with
      | some v => some v
      | none => l₂.lookup x := by
  induction l₁ with
  | nil => simp [List.lookup]
  | cons p l₁ ih =>
    simp only [List.cons_append, List.lookup]
    cases hb : x == p.1 with
    | true => rfl
    | false => exact ih

/-- `List.lookup` on a singleton dict. -/
theorem lookup_singleton (p : String × String) (x : String) :
    List.lookup x [p] = if x = p.1 then some p.2 else none := by
  simp only [List.lookup]
  by_cases hx : x = p.1
  · rw [if_pos hx]
    have : (x == p.1) = true := beq_iff_eq.mpr hx
    rw [this]
  · rw [if_neg hx]
    have : (x == p.1) = false := beq_eq_false_iff_ne.mpr hx
    rw [this]

/-- Looking a url up in the fetched `content_maps`: present iff the url was
selected, and then bound to its `fetch_markdown` output (every entry for a
given url carries the same fetched value, so the reversal does not matter).
-/
theorem lookup_urlContentMaps (web : String → Option String)
    (h2t : String → String) (urls : List String) (x : String) :
    (urlContentMaps (batchFetchUrls web h2t urls)).lookup x =
      if x ∈ urls then some (fetchMarkdown web h2t x).2 else none := by
  induction urls with
  | nil => simp [urlContentMaps, batchFetchUrls, List.lookup]
  | cons u us ih =>
    have hfst : (fetchMarkdown web h2t u).1 = u := by
      unfold fetchMarkdown
      cases web u <;> rfl
    simp only [urlContentMaps, batchFetchUrls, List.map_cons,
      List.reverse_cons] at ih ⊢
    rw [lookup_append, ih]
    by_cases hx : x ∈ us
    · simp [hx]
    · by_cases hxu : x = u
      · subst hxu
        simp [hx, lookup_singleton, hfst]
      · simp [hx, hxu, lookup_singleton, hfst]

/-- `fetch_details` rewritten pointwise: a result's `content` is
set/overwritten exactly when its `link` is among the selected urls, and then
to that url's `fetch_markdown` output; all other results are untouched. -/
theorem fetchDetails_eq (web : String → Option String) (h2t : String → String)
    (rs : List Result) (ms : ℚ) (tk : Nat) :
    fetchDetails web h2t rs ms tk = rs.map (fun r =>
      if r.link ∈ selectUrls rs ms tk then
        { r with content := some (fetchMarkdown web h2t r.link).2 }
      else r) := by
  simp only [fetchDetails]
  refine List.map_congr_left ?_
  intro a _
  rw [lookup_urlContentMaps]
  by_cases h : a.link ∈ selectUrls rs ms tk
  · simp [h]
  · simp [h]

/-- Pointwise content-only change preserves the uuid column. -/
theorem forall₂_sec_map_uuid {l₁ l₂ : List Result}
    (h : List.Forall₂ sameExceptContent l₁ l₂) :
    l₁.map Result.uuid = l₂.map Result.uuid := by
  induction h with
  | nil => rfl
  | cons h₁ h₂ ih => simp only [List.map_cons, h₁.2.2.2.2, ih]

/-! ### Concrete collaborators and data for witness instantiations -/

/-- Trivial concrete collaborators. -/
def wOracles : Oracles where
  retriever := fun _ _ _ => Except.ok []
  newScore := fun _ _ => 0
  rerankFails := false
  web := fun _ => none
  h2t := id
  storeQuery := fun _ _ _ _ => Except.ok []
  md5 := id

/-- A concrete plain search result. -/
def wResult : Result :=
  { title := "t1", link := "l1", snippet := "s1", score := 1 }

/-- Collaborators whose search provider returns `[wResult]`. -/
def wOracles8 : Oracles :=
  { wOracles with retriever := fun _ _ _ => Except.ok [wResult] }

/-! ### Claims -/

/-- C6: every request whose extracted bearer token does not match the
server-configured secret — in particular any request without an
`Authorization` header, and every request when the secret is unset — receives
the `Access Denied` error and invokes no pipeline stage (not even the
Retriever), regardless of the query and all other request fields. -/
theorem accessDenied_no_stage (o : Oracles)
    (secret authorization : Option String) (req : RagSearchReq)
    (h : ∀ s, secret = some s → extractApiKey authorization ≠ s) :
    ragSearch o secret authorization req = (Resp.err "Access Denied", []) := by
  have hbad : authOk secret authorization = false := by
    unfold authOk
    cases hs : secret with
    | none => rfl
    | some s => exact decide_eq_false (h s hs)
  simp [ragSearch, hbad]

/-- Witness for C6: header missing, secret configured. -/
theorem accessDenied_no_stage_witness :
    ragSearch wOracles (some "secret-key") none { query := "rust" } =
      (Resp.err "Access Denied", []) :=
  accessDenied_no_stage wOracles (some "secret-key") none { query := "rust" }
    (fun s hs => by injection hs with h'; subst h'; decide)

/-- C7: an authenticated request with an empty query gets the invalid-params
error immediately and no pipeline stage runs, whatever the other fields. -/
theorem emptyQuery_invalid_no_stage (o : Oracles)
    (secret authorization : Option String) (req : RagSearchReq)
    (hauth : authOk secret authorization = true) (hq : req.query = "") :
    ragSearch o secret authorization req = (Resp.err "invalid params", []) := by
  simp [ragSearch, hauth, hq]

/-- Witness for C7: all optional flags set, thresholds varied, still refused
with no stage run. -/
theorem emptyQuery_invalid_no_stage_witness :
    ragSearch wOracles8 (some "") none
      { query := "", locale := "de", search_n := 3, is_reranking := true,
        is_detail := true, detail_top_k := 2, detail_min_score := 0,
        is_filter := true, filter_min_score := 0, filter_top_k := 1 } =
      (Resp.err "invalid params", []) :=
  emptyQuery_invalid_no_stage wOracles8 (some "") none _ (by decide) rfl

/-- C8: with all three optional flags false, an authenticated non-empty-query
request returns exactly the Retriever's raw output — the same list, hence the
same elements in the same order with the same fields, no content added and no
score modified — and only the Retriever ran. -/
theorem allFlagsFalse_raw (o : Oracles) (secret authorization : Option String)
    (req : RagSearchReq) (rs : List Result)
    (hauth : authOk secret authorization = true) (hq : req.query ≠ "")
    (hr : o.retriever req.query req.search_n req.locale = Except.ok rs)
    (h1 : req.is_reranking = false) (h2 : req.is_detail = false)
    (h3 : req.is_filter = false) :
    ragSearch o secret authorization req =
      (Resp.data rs, [Stage.retrieverS]) := by
  simp [ragSearch, hauth, hq, hr, h1, h2, h3]

/-- Witness for C8. -/
theorem allFlagsFalse_raw_witness :
    ragSearch wOracles8 (some "") none { query := "rust" } =
      (Resp.data [wResult], [Stage.retrieverS]) :=
  allFlagsFalse_raw wOracles8 (some "") none { query := "rust" } [wResult]
    (by decide) (by decide) rfl rfl rfl rfl

/-- C4: every url `fetch_details` selects comes from a result with
`score >= detail_min_score`, the selection follows the list's current order
(it is a sublist of the links), and at most `detail_top_k + 1` urls are
selected: the cap is checked after inclusion. -/
theorem detail_selection_policy (rs : List Result) (ms : ℚ) (tk : Nat) :
    (∀ u ∈ selectUrls rs ms tk, ∃ r ∈ rs, u = r.link ∧ ms ≤ r.score) ∧
    (selectUrls rs ms tk).length ≤ tk + 1 ∧
    (selectUrls rs ms tk).Sublist (rs.map Result.link) := by
  rw [selectUrls_eq]
  refine ⟨?_, ?_, ?_⟩
  · intro u hu
    have hu' : u ∈ (rs.filter (fun r => ms ≤ r.score)).map Result.link :=
      (List.take_sublist _ _).subset hu
    rcases List.mem_map.mp hu' with ⟨r, hr, rfl⟩
    have hmem := List.mem_filter.mp hr
    exact ⟨r, hmem.1, rfl, by simpa using hmem.2⟩
  · rw [List.length_take]
    exact min_le_left _ _
  · exact (List.take_sublist _ _).trans
      ((List.filter_sublist rs).map Result.link)

/-- Concrete results for the C4 witness: the high-score head is taken, the
low-score result skipped, and the cap `top_k + 1 = 1` stops the selection
before the third. -/
def wRs4 : List Result :=
  [{ title := "a", link := "la", snippet := "s", score := 2 },
   { title := "b", link := "lb", snippet := "s", score := 0 },
   { title := "c", link := "lc", snippet := "s", score := 3 }]

/-- Witness for C4 at `min_score = 1`, `top_k = 0`. -/
theorem detail_selection_policy_witness :
    (∃ r ∈ wRs4, "la" = r.link ∧ (1 : ℚ) ≤ r.score) ∧
    (selectUrls wRs4 1 0).length ≤ 1 ∧
    (selectUrls wRs4 1 0).Sublist (wRs4.map Result.link) :=
  ⟨(detail_selection_policy wRs4 1 0).1 "la" (by decide),
   (detail_selection_policy wRs4 1 0).2.1,
   (detail_selection_policy wRs4 1 0).2.2⟩

/-- C9: a result is submitted for indexing iff its `content` key is present
and strictly longer than its snippet; failing results are excluded from
indexing but stay in the stage's output list (in position, all fields except
`content` untouched). -/
theorem filter_indexing_policy (rs : List Result) :
    (∀ r ∈ resultsWithContent rs,
        ∃ c, r.content = some c ∧ c.length > r.snippet.length) ∧
    (∀ r ∈ rs, hasLongContent r = false → r ∉ resultsWithContent rs) ∧
    (∀ sq md5 q fms ftk,
        List.Forall₂ sameExceptContent rs
          (filterContent sq md5 rs q fms ftk).1) := by
  refine ⟨?_, ?_, ?_⟩
  · intro r hr
    have h := (List.mem_filter.mp hr).2
    unfold hasLongContent at h
    cases hc : r.content with
    | none => rw [hc] at h; cases h
    | some c =>
      rw [hc] at h
      exact ⟨c, rfl, by simpa using h⟩
  · intro r _ hno hmem
    have h := (List.mem_filter.mp hmem).2
    rw [hno] at h
    cases h
  · intro sq md5 q fms ftk
    exact filterContent_sec sq md5 rs q fms ftk

/-- A concrete enriched result (content longer than snippet). -/
def wEnriched : Result :=
  { title := "t", link := "l", snippet := "s", score := 1,
    content := some "abcdef" }

/-- A concrete result without a `content` key. -/
def wPlain : Result :=
  { title := "t2", link := "l2", snippet := "s2", score := 1 }

/-- Witness for C9. -/
theorem filter_indexing_policy_witness :
    (∃ c, wEnriched.content = some c ∧ c.length > wEnriched.snippet.length) ∧
    wPlain ∉ resultsWithContent [wEnriched, wPlain] :=
  ⟨(filter_indexing_policy [wEnriched, wPlain]).1 wEnriched (by decide),
   (filter_indexing_policy [wEnriched, wPlain]).2.1 wPlain (by decide)
     (by decide)⟩

/-- C10: no stage adds or removes result records.  The rerank stage (source
external; modelled from the spec as `rerankSpec`) returns a permutation of
its input records with only `score` rewritten; `fetch_details` and
`filter_content` return their input records in position with only `content`
rewritten — this holds for the list state they leave even when
`filter_content` fails part way. -/
theorem stages_preserve_membership :
    (∀ (ns : Result → String → ℚ) (rs : List Result) (q : String),
        (rerankSpec ns rs q).Perm
          (rs.map (fun r => { r with score := ns r q }))) ∧
    (∀ (web : String → Option String) (h2t : String → String)
        (rs : List Result) (ms : ℚ) (tk : Nat),
        List.Forall₂ sameExceptContent rs (fetchDetails web h2t rs ms tk)) ∧
    (∀ sq (md5 : String → String) (rs : List Result) (q : String) (fms : ℚ)
        (ftk : Nat),
        List.Forall₂ sameExceptContent rs
          (filterContent sq md5 rs q fms ftk).1) :=
  ⟨fun _ _ _ => List.mergeSort_perm _ _,
   fun web h2t rs ms tk => fetchDetails_sec web h2t rs ms tk,
   fun sq md5 rs q fms ftk => filterContent_sec sq md5 rs q fms ftk⟩

/-- C5: no stage writes a `uuid` key onto a search result —
`fetch_details` leaves the uuid column untouched, and `build_document`
derives the uuid (from `result["uuid"]` when present, else `md5(link)`) only
into the document's metadata while never modifying the record — so when the
store query succeeds with at least one match and some result lacks the
`uuid` key, `filter_content`'s merge-back loop raises `KeyError` and the
stage aborts, with the records it already visited possibly content-mutated
in place and nothing else changed. -/
theorem merge_back_keyerror :
    (∀ (web : String → Option String) (h2t : String → String)
        (rs : List Result) (ms : ℚ) (tk : Nat),
        (fetchDetails web h2t rs ms tk).map Result.uuid = rs.map Result.uuid) ∧
    (∀ (md5 : String → String) (r : Result) (d : Document),
        buildDocument md5 r = some d → r.uuid = none →
        d.muuid = md5 r.link) ∧
    (∀ sq (md5 : String → String) (rs : List Result) (q : String) (fms : ℚ)
        (ftk : Nat) (mres : List MatchRes),
        sq ((resultsWithContent rs).map (buildDocument md5)) q fms ftk =
          Except.ok mres →
        mres ≠ [] → (∃ r ∈ rs, r.uuid = none) →
        (filterContent sq md5 rs q fms ftk).2 = some "KeyError: uuid" ∧
        List.Forall₂ sameExceptContent rs
          (filterContent sq md5 rs q fms ftk).1) := by
  refine ⟨?_, ?_, ?_⟩
  · intro web h2t rs ms tk
    exact (forall₂_sec_map_uuid (fetchDetails_sec web h2t rs ms tk)).symm
  · intro md5 r d hd hu
    unfold buildDocument at hd
    by_cases hls : r.link = "" ∨ r.snippet = ""
    · rw [if_pos hls] at hd; cases hd
    · rw [if_neg hls, hu] at hd
      cases hd
      rfl
  · intro sq md5 rs q fms ftk mres hsq hne hex
    constructor
    · simp only [filterContent]
      rw [hsq]
      exact mergeBack_err _ rs hex
    · exact filterContent_sec sq md5 rs q fms ftk

/-- A concrete enriched result that carries a `uuid` key. -/
def wR5a : Result :=
  { title := "t1", link := "l1", snippet := "s", score := 1,
    content := some "long enough content", uuid := some "u1" }

/-- A concrete result without a `uuid` key. -/
def wR5b : Result :=
  { title := "t2", link := "l2", snippet := "s2", score := 1 }

/-- A store round trip returning one matched fragment for `u1`. -/
def wStoreQuery :
    List (Option Document) → String → ℚ → Nat → Except String (List MatchRes) :=
  fun _ _ _ _ => Except.ok [{ uuid := "u1", content := "frag" }]

/-- Witness for C5. -/
theorem merge_back_keyerror_witness :
    (filterContent wStoreQuery id [wR5a, wR5b] "q" 0 6).2 =
      some "KeyError: uuid" ∧
    List.Forall₂ sameExceptContent [wR5a, wR5b]
      (filterContent wStoreQuery id [wR5a, wR5b] "q" 0 6).1 :=
  merge_back_keyerror.2.2 wStoreQuery id [wR5a, wR5b] "q" 0 6
    [{ uuid := "u1", content := "frag" }] rfl (by decide)
    ⟨wR5b, by decide, rfl⟩

/-- C1 (code bug in `filter_content`'s merge map): the first matched fragment
of each uuid is dropped, because the `+=` sits in the `else` branch of the
`not in content_maps` test.  A uuid with the single matched fragment `"A"`
gets the blob `""` (the claim expects `"A"`); with fragments `"A"` then
`"B"` it gets `"B"` (the claim expects `"AB"`); and the merge-back then
overwrites the source result's content with the empty blob. -/
theorem first_fragment_dropped :
    contentMapsOf [{ uuid := "u1", content := "A" }] = [("u1", "")] ∧
    contentMapsOf [{ uuid := "u1", content := "A" },
                   { uuid := "u1", content := "B" }] = [("u1", "B")] ∧
    (filterContent (fun _ _ _ _ =>
          Except.ok [{ uuid := "u1", content := "A" }]) id
        [{ title := "t", link := "l", snippet := "s", score := 1,
           content := some "abcdef", uuid := some "u1" }] "q" 0 6).1 =
      [{ title := "t", link := "l", snippet := "s", score := 1,
         content := some "", uuid := some "u1" }] := by
  decide

/-- C2 counterexample: the single result's url is selected, its fetch fails
(transport error), yet its previous content `"old"` is not left as-is: the
failed fetch lands in the url map as `""` and overwrites the content. -/
theorem failed_fetch_overwrites :
    "u" ∈ selectUrls
        [{ title := "t", link := "u", snippet := "s", score := 1,
           content := some "old" }] 0 6 ∧
    fetchDetails (fun _ => none) id
        [{ title := "t", link := "u", snippet := "s", score := 1,
           content := some "old" }] 0 6 =
      [{ title := "t", link := "u", snippet := "s", score := 1,
         content := some "" }] := by
  decide

/-- C2 (amended): after the merge step a result is left as-is exactly when its
url is not among the selected urls; every result whose url was selected has
its `content` set/overwritten with that url's fetched markdown — the empty
string when the fetch failed, not its prior value. -/
theorem fetch_merge_amended (web : String → Option String)
    (h2t : String → String) (rs : List Result) (ms : ℚ) (tk : Nat) :
    fetchDetails web h2t rs ms tk = rs.map (fun r =>
      if r.link ∈ selectUrls rs ms tk then
        { r with content := some (fetchMarkdown web h2t r.link).2 }
      else r) :=
  fetchDetails_eq web h2t rs ms tk

/-- A concrete enriched result carrying uuid `u1`, for the C3 instance. -/
def wR3a : Result :=
  { title := "t1", link := "l1", snippet := "s", score := 1,
    content := some "abcdef", uuid := some "u1" }

/-- A concrete result lacking the `uuid` key, for the C3 instance. -/
def wR3b : Result :=
  { title := "t2", link := "l2", snippet := "s2", score := 1 }

/-- Collaborators for the C3 instance: the retriever yields the two results
above and the store query matches one fragment for `u1`. -/
def wOracles3 : Oracles :=
  { wOracles with
    retriever := fun _ _ _ => Except.ok [wR3a, wR3b],
    storeQuery := fun _ _ _ _ =>
      Except.ok [{ uuid := "u1", content := "frag" }] }

/-- C3 counterexample: on this request the filter stage fails (KeyError in
the merge-back) and the request still succeeds, but the list the orchestrator
returns is not the stage's unmodified input: the first record's content was
already overwritten (with the empty blob) before the failure. -/
theorem stage_failure_mutates :
    (filterContent wOracles3.storeQuery wOracles3.md5 [wR3a, wR3b] "q"
        (4/5) 6).2.isSome = true ∧
    ragSearch wOracles3 (some "") none { query := "q", is_filter := true } =
      (Resp.data [{ wR3a with content := some "" }, wR3b],
       [Stage.retrieverS, Stage.filterS]) ∧
    ¬ ([{ wR3a with content := some "" }, wR3b] = [wR3a, wR3b]) := by
  decide

/-- C3 (amended): a failure inside an optional stage is caught and the
request still succeeds, and the orchestrator passes forward the failing
stage's list state: for the SemanticFilter this is the input records in
order with all fields except `content` unchanged (content of already-visited
records may have been mutated in place before the failure); for the Reranker
(external, modelled pure) the input is passed fully unmodified. -/
theorem stage_failure_amended :
    (∀ (o : Oracles) (secret authorization : Option String)
        (req : RagSearchReq) (rs : List Result),
        authOk secret authorization = true → req.query ≠ "" →
        o.retriever req.query req.search_n req.locale = Except.ok rs →
        req.is_reranking = false → req.is_detail = false →
        req.is_filter = true →
        ragSearch o secret authorization req =
          (Resp.data (filterContent o.storeQuery o.md5 rs req.query
              req.filter_min_score req.filter_top_k).1,
           [Stage.retrieverS, Stage.filterS]) ∧
        List.Forall₂ sameExceptContent rs
          (filterContent o.storeQuery o.md5 rs req.query
             req.filter_min_score req.filter_top_k).1) ∧
    (∀ (o : Oracles) (secret authorization : Option String)
        (req : RagSearchReq) (rs : List Result),
        authOk secret authorization = true → req.query ≠ "" →
        o.retriever req.query req.search_n req.locale = Except.ok rs →
        req.is_reranking = true → o.rerankFails = true →
        req.is_detail = false → req.is_filter = false →
        ragSearch o secret authorization req =
          (Resp.data rs, [Stage.retrieverS, Stage.rerankS])) := by
  constructor
  · intro o secret authorization req rs hauth hq hr h1 h2 h3
    refine ⟨?_, filterContent_sec o.storeQuery o.md5 rs req.query
      req.filter_min_score req.filter_top_k⟩
    simp [ragSearch, hauth, hq, hr, h1, h2, h3]
  · intro o secret authorization req rs hauth hq hr h1 hrf h2 h3
    simp [ragSearch, hauth, hq, hr, h1, hrf, h2, h3]

/-- Witness for C3 (amended), on the same failing instance as the
counterexample. -/
theorem stage_failure_amended_witness :
    ragSearch wOracles3 (some "") none { query := "q", is_filter := true } =
      (Resp.data (filterContent wOracles3.storeQuery wOracles3.md5
          [wR3a, wR3b] "q" (4/5) 6).1,
       [Stage.retrieverS, Stage.filterS]) ∧
    List.Forall₂ sameExceptContent [wR3a, wR3b]
      (filterContent wOracles3.storeQuery wOracles3.md5 [wR3a, wR3b] "q"
         (4/5) 6).1 :=
  stage_failure_amended.1 wOracles3 (some "") none
    { query := "q", is_filter := true } [wR3a, wR3b] (by decide) (by decide)
    rfl rfl rfl rfl
